import Mathlib

/-!
# Verification of the AsetFilter Excel parsing pipeline

Shallow embedding of `asetfilter/parser.py` (the extraction/normalization
pipeline for irregular spreadsheet exports) and proofs about it.

Modelling conventions:
* A raw cell / Python value is a `PyVal`: an absent value (`null`, covering
  Python `None` and pandas `NaN`; in the pipeline every `NaN` is replaced by
  the empty string before any other processing, so the `NaN`/`None`
  distinction is never observable), a string, a float, or an int.
* Python floats are modelled as exact rationals.  Every float handled by the
  verified statements is an exact decimal, so no rounding behaviour is lost.
* Text processing works on `List Char`; `strip`, `upper`, `lower` and
  substring search model the ASCII behaviour of the Python methods (all
  keywords and sentinels in the source are ASCII).
* Fallible parsing (`float(...)`, `int(...)`, the year regex) returns
  `Option`, with `none` playing the role of "unparseable" / a caught
  `ValueError`.
-/

namespace AsetFilter

/-- A raw spreadsheet cell or Python value flowing through the pipeline. -/
inductive PyVal where
  | null : PyVal
  | str : String → PyVal
  | num : ℚ → PyVal
  | intv : Int → PyVal
deriving DecidableEq

/-- `pd.isna`: only the absent value is "na" (after `fillna('')` no cell is). -/
def pdIsna : PyVal → Bool
  | .null => true
  | _ => false

/-- `pd.notna`. -/
def pdNotna (v : PyVal) : Bool := !(pdIsna v)

/-- Python truthiness of a value (`if value:`). -/
def truthy : PyVal → Bool
  | .null => false
  | .str s => s != ""
  | .num q => q != 0
  | .intv n => n != 0

/-- Python `str.strip()` on a character list (ASCII whitespace). -/
def stripL (l : List Char) : List Char :=
  ((l.dropWhile Char.isWhitespace).reverse.dropWhile Char.isWhitespace).reverse

/-- Python `str.upper()` (ASCII). -/
def upperL (l : List Char) : List Char := l.map Char.toUpper

/-- Python `str.lower()` (ASCII). -/
def lowerL (l : List Char) : List Char := l.map Char.toLower

/-- Decimal digits of the fractional part `n / d`, produced by long division
(used only to render floats; 30 digits is more than any float repr needs). -/
def fracDigits : Nat → Nat → Nat → String
  | _, _, 0 => ""
  | n, d, fuel + 1 =>
    if n = 0 then "" else toString (n * 10 / d) ++ fracDigits (n * 10 % d) d fuel

/-- Python `str(float)` for the exact decimals the pipeline handles:
`str(6153.0) = "6153.0"`, `str(-0.5) = "-0.5"`. -/
def floatRepr (q : ℚ) : String :=
  let sign := if q.num < 0 then "-" else ""
  let n := q.num.natAbs
  let ip := n / q.den
  let fp := n % q.den
  if fp = 0 then sign ++ toString ip ++ ".0"
  else sign ++ toString ip ++ "." ++ fracDigits fp q.den 30

/-- Python `str(value)`. -/
def pyStr : PyVal → String
  | .null => "None"
  | .str s => s
  | .num q => floatRepr q
  | .intv n => toString n

/-- Characters of `str(value)`. -/
def pyStrL (v : PyVal) : List Char := (pyStr v).data

/-- Numeric value of a digit string (most significant first). -/
def digitsVal (l : List Char) : Nat :=
  l.foldl (fun a c => a * 10 + (c.toNat - 48)) 0

/-- Python `float(s)` restricted to sign/digits/dot strings (the only shape
that reaches it in the parser after character stripping): `none` models a
raised `ValueError`. -/
def pyFloat? (l : List Char) : Option ℚ :=
  let sr : Bool × List Char :=
    match l with
    | '-' :: r => (true, r)
    | '+' :: r => (false, r)
    | r => (false, r)
  let sign : Nat → Int := fun n => if sr.1 then -(n : Int) else (n : Int)
  let ip := sr.2.takeWhile Char.isDigit
  let rest := sr.2.dropWhile Char.isDigit
  match rest with
  | [] => if ip.isEmpty then none else some (mkRat (sign (digitsVal ip)) 1)
  | '.' :: fp =>
    if fp.all Char.isDigit && !(ip.isEmpty && fp.isEmpty) then
      some (mkRat (sign (digitsVal (ip ++ fp))) (10 ^ fp.length))
    else none
  | _ => none

/-- Python `s.split(sep)` on characters; `"".split(sep) = [""]`. -/
def splitOnChar (sep : Char) : List Char → List (List Char)
  | [] => [[]]
  | c :: cs =>
    if c = sep then [] :: splitOnChar sep cs
    else
      match splitOnChar sep cs with
      | [] => [[c]]
      | h :: t => (c :: h) :: t

/-- The regex class kept by `re.sub(r'[^\d.\-]', '', s)`. -/
def keepNumChar (c : Char) : Bool := c.isDigit || c = '.' || c = '-'

/-- `clean_luas_value` (parser.py): area normalizer. -/
def clean_luas_value (v : PyVal) : Option ℚ :=
  if pdIsna v then none
  else
    let str_val := stripL (pyStrL v)
    if str_val.isEmpty then none
    else
      let str_val := if str_val.contains ':' then (splitOnChar ':' str_val).headD [] else str_val
      let cleaned := str_val.filter keepNumChar
      if cleaned.isEmpty then none else pyFloat? cleaned

/-- The area normalizer as the specification words it: stringify and trim;
when a colon is present keep only the substring before the first colon; strip
every character that is not a digit, decimal point or minus; parse the
remainder as a float (unparseable when nothing remains or parsing fails). -/
def clean_luas_spec (v : PyVal) : Option ℚ :=
  if pdIsna v then none
  else
    let s := stripL (pyStrL v)
    if s.isEmpty then none
    else
      let s := if s.contains ':' then s.takeWhile (fun c => c != ':') else s
      let kept := s.filter keepNumChar
      if kept.isEmpty then none else pyFloat? kept

/-- `clean_nilai_value` (parser.py): currency normalizer.  The first pass is
`re.sub(r'[Rp.,\s]', '', s)` (currency symbol letters, thousands separators,
whitespace), the second `re.sub(r'[^\d.\-]', '', ...)`. -/
def clean_nilai_value (v : PyVal) : Option ℚ :=
  if pdIsna v then none
  else
    let str_val := stripL (pyStrL v)
    if str_val.isEmpty then none
    else
      let pass1 := str_val.filter
        (fun c => !(c == 'R' || c == 'p' || c == '.' || c == ',' || c.isWhitespace))
      let cleaned := pass1.filter keepNumChar
      if cleaned.isEmpty then none else pyFloat? cleaned

/-- Characters the specification says the currency normalizer strips first:
currency-symbol characters, thousands separators, and whitespace. -/
def currencyStripChar (c : Char) : Bool :=
  (c == 'R' || c == 'p') || (c == '.' || c == ',') || c.isWhitespace

/-- The currency normalizer as the specification words it: empty/absent is
unparseable; strip currency-symbol characters, thousands separators and
whitespace, then strip any remaining non-numeric characters except decimal
point and minus; parse as float or unparseable. -/
def clean_nilai_spec (v : PyVal) : Option ℚ :=
  if pdIsna v then none
  else
    let s := stripL (pyStrL v)
    if s.isEmpty then none
    else
      let kept := (s.filter (fun c => !currencyStripChar c)).filter keepNumChar
      if kept.isEmpty then none else pyFloat? kept

/-- Python `int(float)`: truncation toward zero. -/
def ratTrunc (q : ℚ) : Int := q.num.tdiv (q.den : Int)

/-- `re.search(r'(\d{4})', s)`: scan left to right and return the value of the
first four consecutive digit characters. -/
def searchFourDigits : List Char → Option Nat
  | [] => none
  | a :: rest =>
    match rest with
    | b :: c :: d :: _ =>
      if a.isDigit && b.isDigit && c.isDigit && d.isDigit then
        some (digitsVal [a, b, c, d])
      else searchFourDigits rest
    | _ => none

/-- `clean_tahun_value` (parser.py): year normalizer. -/
def clean_tahun_value (v : PyVal) : Option Int :=
  if pdIsna v then none
  else
    match v with
    | .num q => some (ratTrunc q)
    | _ =>
      let str_val := stripL (pyStrL v)
      match searchFourDigits str_val with
      | some y => if 1900 ≤ y && y ≤ 2100 then some (y : Int) else none
      | none => none

/-- Maximal digit runs of a character list (accumulator holds the current run
reversed). -/
def digitRunsAux : List Char → List Char → List (List Char)
  | acc, [] => if acc.isEmpty then [] else [acc.reverse]
  | acc, c :: cs =>
    if c.isDigit then digitRunsAux (c :: acc) cs
    else if acc.isEmpty then digitRunsAux [] cs
    else acc.reverse :: digitRunsAux [] cs

/-- Maximal digit runs of a character list. -/
def digitRuns (l : List Char) : List (List Char) := digitRunsAux [] l

/-- The year normalizer as the claim words it, reading "first run of exactly
four digits" as the first maximal digit run whose length is exactly four. -/
def clean_tahun_exact_run_spec (v : PyVal) : Option Int :=
  if pdIsna v then none
  else
    match v with
    | .num q => some (ratTrunc q)
    | _ =>
      match (digitRuns (stripL (pyStrL v))).find? (fun r => r.length == 4) with
      | some r =>
        let y := digitsVal r
        if 1900 ≤ y && y ≤ 2100 then some (y : Int) else none
      | none => none

/-- `true` when the four characters starting at position `i` exist and are all
digits. -/
def fourDigitWindow (l : List Char) (i : Nat) : Bool :=
  ((l.drop i).take 4).length == 4 && ((l.drop i).take 4).all Char.isDigit

/-- Value of the first window of four consecutive digits, scanning left to
right (the semantics of `re.search(r'(\d{4})', s)`). -/
def firstFourWindow (l : List Char) : Option Nat :=
  ((List.range l.length).find? (fourDigitWindow l)).map
    (fun i => digitsVal ((l.drop i).take 4))

/-- The year normalizer as amended: the first four consecutive digits are
taken, even inside a longer digit run. -/
def clean_tahun_amended_spec (v : PyVal) : Option Int :=
  if pdIsna v then none
  else
    match v with
    | .num q => some (ratTrunc q)
    | _ =>
      match firstFourWindow (stripL (pyStrL v)) with
      | some y => if 1900 ≤ y && y ≤ 2100 then some (y : Int) else none
      | none => none

/-- Python `' '.join` on character lists. -/
def joinSp : List (List Char) → List Char
  | [] => []
  | [s] => s
  | s :: rest => s ++ ' ' :: joinSp rest

/-- Python `' | '.join` on strings. -/
def joinPipe : List String → String
  | [] => ""
  | [s] => s
  | s :: rest => s ++ " | " ++ joinPipe rest

/-- Python substring test `needle in hay` on character lists. -/
def subL (needle : List Char) : List Char → Bool
  | [] => needle.isEmpty
  | c :: cs => needle.isPrefixOf (c :: cs) || subL needle cs

/-- The cells of a row that are neither absent nor, after trimming, empty
(the generator condition `pd.notna(v) and str(v).strip() != ''`). -/
def nonEmptyCells (row : List PyVal) : List PyVal :=
  row.filter (fun v => pdNotna v && !(stripL (pyStrL v)).isEmpty)

/-- `SKIP_KEYWORDS` (parser.py): summary/total-row keywords. -/
def SKIP_KEYWORDS : List (List Char) :=
  ["JUMLAH".data, "TOTAL".data, "SUB TOTAL".data, "GRAND TOTAL".data,
   "REKAPITULASI".data]

/-- Trimmed uppercased first cell of a row
(`str(row.iloc[0]).strip().upper() if pd.notna(row.iloc[0]) else ''`). -/
def firstCellUpper (row : List PyVal) : List Char :=
  let v := row.headD PyVal.null
  if pdNotna v then upperL (stripL (pyStrL v)) else []

/-- `is_data_row` (parser.py): row classifier. -/
def is_data_row (row : List PyVal) : Bool :=
  if (nonEmptyCells row).length < 3 then false
  else
    let row_str := joinSp ((nonEmptyCells row).map (fun v => upperL (pyStrL v)))
    let first_val := firstCellUpper row
    if first_val = "BEDA".data then true
    else if subL "LETAK".data row_str && subL "ALAMAT".data row_str then false
    else if subL "PENGADAAN".data row_str && subL "HAK".data row_str then false
    else if SKIP_KEYWORDS.any (fun k => k.isPrefixOf first_val) then false
    else true

/-- The row classifier as the claim words it, rule by rule: (1) reject when
fewer than 3 non-empty cells; (2-3) build the uppercased row text and accept
unconditionally when the first cell is the sentinel token; (4) reject on the
location/address plus address markers; (5) reject on the procurement plus
rights markers; (6) reject when the first cell starts with a summary/total
keyword; (7) otherwise accept. -/
def is_data_row_spec (row : List PyVal) : Bool :=
  if (nonEmptyCells row).length < 3 then false
  else
    let row_str := upperL (joinSp ((nonEmptyCells row).map pyStrL))
    let first_val := firstCellUpper row
    if first_val = "BEDA".data then true
    else if subL "LETAK".data row_str && subL "ALAMAT".data row_str then false
    else if subL "PENGADAAN".data row_str && subL "HAK".data row_str then false
    else if SKIP_KEYWORDS.any (fun k => k.isPrefixOf first_val) then false
    else true

/-- `search_terms` of `find_header_row` (parser.py). -/
def search_terms : List (List Char) :=
  ["Jenis Barang".data, "Nama Barang".data, "Satuan Kerja".data, "KECAMATAN".data]

/-- Number of marker phrases occurring in the (not uppercased) space-joined
text of the non-empty cells of a row, as `find_header_row` computes it. -/
def rowMatchCount (row : List PyVal) : Nat :=
  let row_str := joinSp ((nonEmptyCells row).map pyStrL)
  (search_terms.filter (fun t => subL t row_str)).length

/-- Marker count against the UPPERCASED row text, with the markers kept as the
source writes them — the reading the claim describes. -/
def rowMatchCountUpper (row : List PyVal) : Nat :=
  let row_str := upperL (joinSp ((nonEmptyCells row).map pyStrL))
  (search_terms.filter (fun t => subL t row_str)).length

/-- Marker count with both the row text and the markers uppercased — the other
possible reading of the claim. -/
def rowMatchCountUpperBoth (row : List PyVal) : Nat :=
  let row_str := upperL (joinSp ((nonEmptyCells row).map pyStrL))
  (search_terms.filter (fun t => subL (upperL t) row_str)).length

/-- `find_header_row` (parser.py): index of the first row with at least two
marker matches; `none` models the `-1` "not found" return. -/
def find_header_row : List (List PyVal) → Option Nat
  | [] => none
  | r :: rs =>
    if 2 ≤ rowMatchCount r then some 0
    else (find_header_row rs).map (· + 1)

/-- The header index the orchestrator actually uses: the located row, or the
documented fallback 6 when `find_header_row` signals not-found. -/
def effective_header_row (df : List (List PyVal)) : Nat :=
  match find_header_row df with
  | some i => i
  | none => 6

/-- `COLUMN_MAPPING` (parser.py), as the ordered label table the dict is. -/
def COLUMN_MAPPING : List (String × String) :=
  [("NO. KIB 2023", "no_kib"),
   ("No.", "no_urut"),
   ("Kode Lokasi", "kode_lokasi"),
   ("Satuan Kerja", "satuan_kerja"),
   ("Jenis Barang / Nama Barang", "jenis_barang_nama_barang"),
   ("Nomor", "nomor"),
   ("Luas (m2)", "luas"),
   ("Tahun", "tahun"),
   ("Status Tanah", "status_tanah"),
   ("Penggunaan", "nama_asset"),
   ("Asal Usul", "asal_usul"),
   ("Nilai / Harga", "nilai_harga"),
   ("Keterangan", "keterangan"),
   ("Kode Aset", "kode_aset"),
   ("JUMLAH BIDANG", "jumlah_bidang"),
   ("KECAMATAN", "kecamatan"),
   ("PEMETAAN ASET TANAH", "pemetaan"),
   ("CATATAN (TERMANFAATKAN/TERLANTAR)", "catatan"),
   ("K3 (MILIK WARGA/ADA KLAIM, TKD, DLL)", "k3"),
   ("TANAH (BANGUNAN/TANAH KOSONG)", "tanah_bangunan"),
   ("LAIN-LAIN", "lain_lain"),
   ("Letak/Alamat", "alamat"),
   ("Letak / Alamat", "alamat"),
   ("Location/Address", "alamat")]

/-- Case-insensitive substring test (`a.lower() in b.lower()`). -/
def substrCI (needle hay : String) : Bool :=
  subL (lowerL needle.data) (lowerL hay.data)

/-- Match one candidate label: exact dict lookup first, then the partial
containment fallback over the table in insertion order. -/
def matchCandidate (cand : String) : Option String :=
  match COLUMN_MAPPING.find? (fun p => p.1 == cand) with
  | some p => some p.2
  | none =>
    (COLUMN_MAPPING.find? (fun p => substrCI p.1 cand || substrCI cand p.1)).map
      Prod.snd

/-- Secondary-header detection: the first data row mentions both LETAK and
ALAMAT in its uppercased joined text. -/
def hasSecondaryHeaders (rows : List (List PyVal)) : Bool :=
  match rows with
  | [] => false
  | r :: _ =>
    let first_row_str := joinSp ((nonEmptyCells r).map (fun v => upperL (pyStrL v)))
    subL "LETAK".data first_row_str && subL "ALAMAT".data first_row_str

/-- Candidate label strings for one column position: the primary header when
non-empty, then the secondary header cell when the sheet has secondary
headers. -/
def candidatesAt (cols : List String) (rows : List (List PyVal)) (idx : Nat) :
    List String :=
  let c := cols.getD idx ""
  let primary := if (stripL c.data).isEmpty then [] else [String.mk (stripL c.data)]
  let secondary :=
    if hasSecondaryHeaders rows && !rows.isEmpty then
      let v := (rows.headD []).getD idx PyVal.null
      if pdNotna v && !(stripL (pyStrL v)).isEmpty then
        [String.mk (stripL (pyStrL v))]
      else []
    else []
  primary ++ secondary

/-- `map_columns` (parser.py): position-to-canonical-field mapping, one entry
per column position whose candidates match the table. -/
def map_columns (cols : List String) (rows : List (List PyVal)) :
    List (Nat × String) :=
  (List.range cols.length).filterMap (fun idx =>
    ((candidatesAt cols rows idx).findSome? matchCandidate).map (fun f => (idx, f)))

/-- A record under construction / emitted: a Python dict as an ordered
association list (insertion order preserved, updates in place). -/
abbrev PRecord := List (String × PyVal)

/-- Python `d.get(k)` (`none` both for a missing key; a key holding Python
`None` yields `some PyVal.null`). -/
def dictGet (d : PRecord) (k : String) : Option PyVal :=
  (d.find? (fun p => p.1 == k)).map Prod.snd

/-- Python `d[k] = v`: update in place, or append a new key. -/
def dictSet (d : PRecord) (k : String) (v : PyVal) : PRecord :=
  if d.any (fun p => p.1 == k) then
    d.map (fun p => if p.1 == k then (k, v) else p)
  else d ++ [(k, v)]

/-- `status_fields` of `combine_status_fields` (parser.py). -/
def status_fields : List String :=
  ["status_tanah", "catatan", "k3", "pemetaan", "tanah_bangunan"]

/-- Sentinel non-values excluded by the status combiner. -/
def SENTINEL_NON_VALUES : List String := ["NAN", "NONE", "-"]

/-- One status field contribution (`if value and not pd.isna(value): ...`). -/
def statusPart (row : PRecord) (f : String) : Option String :=
  match dictGet row f with
  | none => none
  | some v =>
    if truthy v && !(pdIsna v) then
      let s := String.mk (upperL (stripL (pyStrL v)))
      if s != "" && !(SENTINEL_NON_VALUES.contains s) then some s else none
    else none

/-- The duplicate-removal loop of `combine_status_fields`: a `seen` set plus
an output list preserving first occurrences. -/
def dedupSeen (seen : List String) : List String → List String
  | [] => []
  | p :: rest =>
    if seen.contains p then dedupSeen seen rest
    else p :: dedupSeen (p :: seen) rest

/-- `combine_status_fields` (parser.py): composite status string. -/
def combine_status_fields (row : PRecord) : String :=
  let parts := status_fields.filterMap (statusPart row)
  let unique := dedupSeen [] parts
  if !unique.isEmpty then joinPipe unique else ""

/-- Deduplication as the specification words it: keep the first occurrence of
each value, dropping later exact duplicates. -/
def dedupKeepFirst : List String → List String
  | [] => []
  | x :: xs => x :: (dedupKeepFirst xs).filter (fun y => y != x)

/-- The status combiner as the claim words it (amended to exclude
source-language-falsy raw values): concatenate the trimmed uppercased values
of the five status fields in fixed order, keep truthy values whose text is
non-empty and not a sentinel non-value, drop exact duplicates preserving
first occurrence, and join with the pipe delimiter. -/
def combine_status_spec_amended (row : PRecord) : String :=
  joinPipe (dedupKeepFirst (status_fields.filterMap (fun f =>
    match dictGet row f with
    | none => none
    | some v =>
      let s := String.mk (upperL (stripL (pyStrL v)))
      if truthy v && (s != "" && !(SENTINEL_NON_VALUES.contains s)) then some s
      else none)))

/-- The status combiner exactly as the claim words it: every present field
whose trimmed uppercased text is non-empty and not a sentinel non-value
contributes, regardless of the raw value's truthiness. -/
def combine_status_spec_claim (row : PRecord) : String :=
  joinPipe (dedupKeepFirst (status_fields.filterMap (fun f =>
    match dictGet row f with
    | none => none
    | some v =>
      let s := String.mk (upperL (stripL (pyStrL v)))
      if s != "" && !(SENTINEL_NON_VALUES.contains s) then some s
      else none)))

/-- Wrap a cleaned optional float back into a record value (Python
`None`/`float`). -/
def encOptQ : Option ℚ → PyVal
  | none => PyVal.null
  | some q => PyVal.num q

/-- Wrap a cleaned optional year back into a record value (Python
`None`/`int`). -/
def encOptZ : Option Int → PyVal
  | none => PyVal.null
  | some n => PyVal.intv n

/-- Build the raw record for a row from the column map
(`record[field_name] = row.iloc[col_idx]`, in dict order; a later position
mapped to the same field overwrites the earlier value). -/
def buildRecord (cm : List (Nat × String)) (row : List PyVal) : PRecord :=
  cm.foldl (fun d p => dictSet d p.2 (row.getD p.1 PyVal.null)) []

/-- District cleanup: a kecamatan value of `'0'`, `'-'` or `''` becomes
Python `None`; the pair also returns the local `kecamatan` variable. -/
def kecCleaned (d : PRecord) : PRecord × PyVal :=
  match dictGet d "kecamatan" with
  | none => (d, PyVal.null)
  | some v =>
    let s := String.mk (stripL (pyStrL v))
    if s == "0" || s == "-" || s == "" then
      (dictSet d "kecamatan" PyVal.null, PyVal.null)
    else (d, v)

/-- The blank-asset-name test (`if not nama or str(nama).strip() == '':`). -/
def namaBlank (d : PRecord) : Bool :=
  match dictGet d "nama_asset" with
  | none => true
  | some v => !(truthy v) || (stripL (pyStrL v)).isEmpty

/-- District cleanup followed by the asset-name requirement: `none` when the
row is rejected (blank name and no district), otherwise the record with the
placeholder substituted when needed. -/
def recordAfterNama (cm : List (Nat × String)) (row : List PyVal) :
    Option PRecord :=
  let dk := kecCleaned (buildRecord cm row)
  if namaBlank dk.1 then
    if truthy dk.2 then
      some (dictSet dk.1 "nama_asset" (PyVal.str "(Tanpa Nama)"))
    else none
  else some dk.1

/-- One `if field in record: record[field] = clean(record[field])` block. -/
def cleanField (d : PRecord) (k : String) (f : PyVal → PyVal) : PRecord :=
  match dictGet d k with
  | some v => dictSet d k (f v)
  | none => d

/-- Numeric field cleaning (`if 'luas' in record: ...`, etc., in order). -/
def cleanNumeric (d : PRecord) : PRecord :=
  cleanField
    (cleanField
      (cleanField d "luas" (fun v => encOptQ (clean_luas_value v)))
      "nilai_harga" (fun v => encOptQ (clean_nilai_value v)))
    "tahun" (fun v => encOptZ (clean_tahun_value v))

/-- The string fields trimmed at the end of the row loop. -/
def TRIM_FIELDS : List String :=
  ["nama_asset", "kecamatan", "satuan_kerja", "status_tanah", "catatan", "k3",
   "pemetaan", "tanah_bangunan", "kode_aset"]

/-- Trim one string field when present and not Python `None`. -/
def trimOne (d : PRecord) (f : String) : PRecord :=
  match dictGet d f with
  | some v =>
    if v = PyVal.null then d
    else dictSet d f (PyVal.str (String.mk (stripL (pyStrL v))))
  | none => d

/-- Trim all designated string fields in order. -/
def trimFields : List String → PRecord → PRecord
  | [], d => d
  | f :: fs, d => trimFields fs (trimOne d f)

/-- Numeric cleaning, status combination and string trimming — everything the
row loop does after the asset-name requirement. -/
def finishRecord (d : PRecord) : PRecord :=
  let d1 := cleanNumeric d
  let d2 := dictSet d1 "status_combined" (PyVal.str (combine_status_fields d1))
  trimFields TRIM_FIELDS d2

/-- Process one classifier-accepted row: `none` models
`stats['skipped_rows'] += 1; continue` on a blank asset name. -/
def processRow (cm : List (Nat × String)) (row : List PyVal) :
    Option PRecord :=
  (recordAfterNama cm row).map finishRecord

/-- The row loop: emitted records plus the skipped count. -/
def processRows (cm : List (Nat × String)) :
    List (List PyVal) → List PRecord × Nat
  | [] => ([], 0)
  | r :: rs =>
    if !(is_data_row r) then
      let a := processRows cm rs
      (a.1, a.2 + 1)
    else
      match processRow cm r with
      | none => let a := processRows cm rs; (a.1, a.2 + 1)
      | some rec => let a := processRows cm rs; (rec :: a.1, a.2)

/-- `stats` of `parse_excel_file` (parser.py). -/
structure ParseStats where
  total_rows_read : Nat
  valid_rows : Nat
  skipped_rows : Nat
  sheets_processed : List String
  errors : List String
deriving DecidableEq

/-- `df_raw.fillna('')`: every absent cell becomes the empty string. -/
def fillna (df : List (List PyVal)) : List (List PyVal) :=
  df.map (fun r => r.map (fun v => if v = PyVal.null then PyVal.str "" else v))

/-- `parse_excel_file` (parser.py).  The `Except` input models the outcome of
the spreadsheet read (sheet `'A'`, falling back to the first sheet): an
`error` is the exception text caught by the outer handler.  A fallback header
index beyond the sheet models the `iloc` `IndexError`, likewise caught by the
outer handler. -/
def parse_excel_file (input : Except String (List (List PyVal))) :
    List PRecord × ParseStats :=
  match input with
  | .error e =>
    ([], ⟨0, 0, 0, [], ["Error reading Excel file: " ++ e]⟩)
  | .ok raw =>
    let df_raw := fillna raw
    let total := df_raw.length
    let hIdx := effective_header_row df_raw
    if hIdx < total then
      let headers := (df_raw.getD hIdx []).map (fun h => String.mk (stripL (pyStrL h)))
      let df_data := df_raw.drop (hIdx + 1)
      let cm := map_columns headers df_data
      if cm.isEmpty then
        ([], ⟨total, 0, 0, ["Sheet A/0"], ["Could not map columns"]⟩)
      else
        let pr := processRows cm df_data
        (pr.1, ⟨total, pr.1.length, pr.2, ["Sheet A/0"], []⟩)
    else
      ([], ⟨total, 0, 0, ["Sheet A/0"],
            ["Error reading Excel file: single positional indexer is out-of-bounds"]⟩)

theorem splitOnChar_ne_nil (sep : Char) (l : List Char) : splitOnChar sep l ≠ [] := by
  cases l with
  | nil => simp [splitOnChar]
  | cons c cs =>
    simp only [splitOnChar]
    by_cases h : c = sep
    · simp [h]
    · simp only [h, if_false]
      cases splitOnChar sep cs <;> simp

theorem splitOnChar_headD (sep : Char) (l : List Char) :
    (splitOnChar sep l).headD [] = l.takeWhile (fun c => c != sep) := by
  induction l with
  | nil => rfl
  | cons c cs ih =>
    by_cases h : c = sep
    · simp [splitOnChar, h, List.takeWhile_cons]
    · have hc : (c != sep) = true := by simp [bne, h]
      obtain ⟨a, t, hs⟩ : ∃ a t, splitOnChar sep cs = a :: t := by
        cases hcs : splitOnChar sep cs with
        | nil => exact absurd hcs (splitOnChar_ne_nil sep cs)
        | cons a t => exact ⟨a, t, rfl⟩
      rw [hs] at ih
      simp only [List.headD_cons] at ih
      simp [splitOnChar, h, hs, List.takeWhile_cons, hc, ih]

theorem find?_comp_map {α β : Type _} (f : α → β) (p : β → Bool) (l : List α) :
    (l.map f).find? p = (l.find? (fun a => p (f a))).map f := by
  induction l with
  | nil => rfl
  | cons a l ih => cases h : p (f a) <;> simp [List.find?, h, ih]

theorem firstFourWindow_short (l : List Char) (h : l.length < 4) :
    firstFourWindow l = none := by
  unfold firstFourWindow
  have hfind : (List.range l.length).find? (fourDigitWindow l) = none := by
    rw [List.find?_eq_none]
    intro i hi
    simp only [List.mem_range] at hi
    simp only [fourDigitWindow, Bool.and_eq_true, beq_iff_eq, List.length_take,
      List.length_drop]
    rintro ⟨h1, -⟩
    omega
  rw [hfind]
  rfl

theorem firstFourWindow_cons_true {a : Char} {tl : List Char}
    (h : fourDigitWindow (a :: tl) 0 = true) :
    firstFourWindow (a :: tl) = some (digitsVal ((a :: tl).take 4)) := by
  unfold firstFourWindow
  have hlen : (a :: tl).length = tl.length + 1 := rfl
  rw [hlen, List.range_succ_eq_map, List.find?_cons_of_pos _ h]
  rfl

theorem firstFourWindow_cons_false {a : Char} {tl : List Char}
    (h : fourDigitWindow (a :: tl) 0 = false) :
    firstFourWindow (a :: tl) = firstFourWindow tl := by
  unfold firstFourWindow
  have hlen : (a :: tl).length = tl.length + 1 := rfl
  rw [hlen, List.range_succ_eq_map, List.find?_cons_of_neg _ (by simp [h]),
    find?_comp_map]
  have hfun : (fun i => fourDigitWindow (a :: tl) (Nat.succ i))
      = fourDigitWindow tl := by
    funext i; rfl
  rw [hfun, Option.map_map]
  congr 1

theorem searchFourDigits_eq_window :
    (l : List Char) → searchFourDigits l = firstFourWindow l
  | [] => rfl
  | [a] => rfl
  | [a, b] => rfl
  | [a, b, c] => rfl
  | a :: b :: c :: d :: rest => by
    have ih := searchFourDigits_eq_window (b :: c :: d :: rest)
    have htake : (a :: b :: c :: d :: rest).take 4 = [a, b, c, d] := rfl
    have hall : ((a :: b :: c :: d :: rest).take 4).all Char.isDigit
        = (a.isDigit && b.isDigit && c.isDigit && d.isDigit) := by
      rw [htake]; simp [Bool.and_assoc]
    cases h : (a.isDigit && b.isDigit && c.isDigit && d.isDigit) with
    | true =>
      have hw : fourDigitWindow (a :: b :: c :: d :: rest) 0 = true := by
        simp only [fourDigitWindow, List.drop_zero, hall, h, Bool.and_true]
        rw [htake]
        rfl
      have hcode : searchFourDigits (a :: b :: c :: d :: rest)
          = some (digitsVal [a, b, c, d]) := by
        show (if a.isDigit && b.isDigit && c.isDigit && d.isDigit then
            some (digitsVal [a, b, c, d])
          else searchFourDigits (b :: c :: d :: rest)) = _
        rw [h]
        rfl
      rw [hcode, firstFourWindow_cons_true hw, htake]
    | false =>
      have hw : fourDigitWindow (a :: b :: c :: d :: rest) 0 = false := by
        simp only [fourDigitWindow, List.drop_zero, hall, h, Bool.and_false]
      have hcode : searchFourDigits (a :: b :: c :: d :: rest)
          = searchFourDigits (b :: c :: d :: rest) := by
        show (if a.isDigit && b.isDigit && c.isDigit && d.isDigit then
            some (digitsVal [a, b, c, d])
          else searchFourDigits (b :: c :: d :: rest)) = _
        rw [h]
        rfl
      rw [hcode, firstFourWindow_cons_false hw]
      exact ih

theorem clean_tahun_eq_amended :
    ∀ v, clean_tahun_value v = clean_tahun_amended_spec v := by
  intro v
  simp only [clean_tahun_value, clean_tahun_amended_spec, searchFourDigits_eq_window]

theorem clean_luas_eq_spec (v : PyVal) : clean_luas_value v = clean_luas_spec v := by
  simp only [clean_luas_value, clean_luas_spec, splitOnChar_headD]

theorem clean_nilai_eq_spec (v : PyVal) : clean_nilai_value v = clean_nilai_spec v := by
  have hf : (fun c : Char => !currencyStripChar c)
      = (fun c : Char =>
          !(c == 'R' || c == 'p' || c == '.' || c == ',' || c.isWhitespace)) := by
    funext c
    simp [currencyStripChar, Bool.or_assoc]
  simp only [clean_nilai_value, clean_nilai_spec, hf]

theorem dedupKeepFirst_filter (q : String → Bool) (l : List String) :
    dedupKeepFirst (l.filter q) = (dedupKeepFirst l).filter q := by
  induction l with
  | nil => rfl
  | cons x xs ih =>
    cases hq : q x with
    | true =>
      rw [List.filter_cons, if_pos hq]
      show x :: (dedupKeepFirst (xs.filter q)).filter (fun y => y != x)
          = (x :: (dedupKeepFirst xs).filter (fun y => y != x)).filter q
      rw [ih, List.filter_cons, if_pos hq, List.filter_filter, List.filter_filter]
      apply congrArg
      apply List.filter_congr
      intro y _
      exact Bool.and_comm _ _
    | false =>
      rw [List.filter_cons, if_neg (by simp [hq])]
      show dedupKeepFirst (xs.filter q)
          = (x :: (dedupKeepFirst xs).filter (fun y => y != x)).filter q
      rw [ih, List.filter_cons, if_neg (by simp [hq]), List.filter_filter]
      apply List.filter_congr
      intro a _
      by_cases ha : a = x
      · subst ha
        simp [hq]
      · have hne : (a != x) = true := by simp [bne, ha]
        rw [hne, Bool.and_true]

theorem dedupSeen_eq (l seen : List String) :
    dedupSeen seen l = dedupKeepFirst (l.filter (fun x => !(seen.contains x))) := by
  induction l generalizing seen with
  | nil => rfl
  | cons p rest ih =>
    cases h : seen.contains p with
    | true =>
      have h1 : dedupSeen seen (p :: rest) = dedupSeen seen rest := by
        simp only [dedupSeen, h, if_true]
      have h2 : List.filter (fun x => !(seen.contains x)) (p :: rest)
          = List.filter (fun x => !(seen.contains x)) rest := by
        simp only [List.filter_cons, h, Bool.not_true, Bool.false_eq_true, if_false]
      rw [h1, h2, ih]
    | false =>
      have h1 : dedupSeen seen (p :: rest) = p :: dedupSeen (p :: seen) rest := by
        simp only [dedupSeen, h, Bool.false_eq_true, if_false]
      have h2 : List.filter (fun x => !(seen.contains x)) (p :: rest)
          = p :: List.filter (fun x => !(seen.contains x)) rest := by
        simp only [List.filter_cons, h, Bool.not_false, if_true]
      have hsplit : rest.filter (fun x => !((p :: seen).contains x))
          = (rest.filter (fun x => !(seen.contains x))).filter (fun y => y != p) := by
        rw [List.filter_filter]
        apply List.filter_congr
        intro x _
        show (!((p :: seen).contains x)) = ((x != p) && !(seen.contains x))
        rw [List.contains_cons]
        cases hx : x == p <;> cases hs : seen.contains x <;> simp [bne, hx, hs]
      rw [h1, h2]
      show p :: dedupSeen (p :: seen) rest
          = p :: (dedupKeepFirst (rest.filter (fun x => !(seen.contains x)))).filter
              (fun y => y != p)
      rw [ih, hsplit, dedupKeepFirst_filter]

theorem joinPipe_if (u : List String) :
    (if !u.isEmpty then joinPipe u else "") = joinPipe u := by
  cases u <;> simp [joinPipe]

theorem combine_eq_amended (row : PRecord) :
    combine_status_fields row = combine_status_spec_amended row := by
  have hfun : statusPart row = (fun f =>
      match dictGet row f with
      | none => none
      | some v =>
        let s := String.mk (upperL (stripL (pyStrL v)))
        if truthy v && (s != "" && !(SENTINEL_NON_VALUES.contains s)) then some s
        else none) := by
    funext f
    unfold statusPart
    cases hv : dictGet row f with
    | none => rfl
    | some v =>
      cases v with
      | null => rfl
      | str s0 => cases hb : truthy (PyVal.str s0) <;> simp [pdIsna, hb]
      | num q => cases hb : truthy (PyVal.num q) <;> simp [pdIsna, hb]
      | intv n => cases hb : truthy (PyVal.intv n) <;> simp [pdIsna, hb]
  have hdedup := dedupSeen_eq (status_fields.filterMap (statusPart row)) []
  have hfilter : (status_fields.filterMap (statusPart row)).filter
      (fun x => !(([] : List String).contains x))
      = status_fields.filterMap (statusPart row) := by
    simp
  rw [hfilter] at hdedup
  simp only [combine_status_fields, combine_status_spec_amended]
  rw [hdedup, joinPipe_if, hfun]

theorem upperL_joinSp :
    (ls : List (List Char)) → upperL (joinSp ls) = joinSp (ls.map upperL)
  | [] => rfl
  | [s] => rfl
  | s :: t :: rest => by
    have ih := upperL_joinSp (t :: rest)
    have hsp : ' '.toUpper = ' ' := by decide
    show upperL (s ++ ' ' :: joinSp (t :: rest))
        = upperL s ++ ' ' :: joinSp ((t :: rest).map upperL)
    simp only [upperL, List.map_append, List.map_cons, hsp]
    simp only [upperL] at ih
    rw [ih]
    rfl

theorem is_data_row_eq_spec (row : List PyVal) :
    is_data_row row = is_data_row_spec row := by
  simp only [is_data_row, is_data_row_spec, upperL_joinSp, List.map_map,
    Function.comp_def]

theorem find_header_row_some (df : List (List PyVal)) :
    ∀ i, find_header_row df = some i →
      i < df.length ∧ 2 ≤ rowMatchCount (df.getD i [])
        ∧ ∀ j, j < i → rowMatchCount (df.getD j []) < 2 := by
  induction df with
  | nil => intro i h; simp [find_header_row] at h
  | cons r rs ih =>
    intro i h
    by_cases h2 : 2 ≤ rowMatchCount r
    · simp only [find_header_row, if_pos h2, Option.some.injEq] at h
      subst h
      exact ⟨Nat.succ_pos _, by simpa using h2, fun j hj => absurd hj (Nat.not_lt_zero j)⟩
    · simp only [find_header_row, if_neg h2] at h
      cases hf : find_header_row rs with
      | none => rw [hf] at h; simp at h
      | some k =>
        rw [hf] at h
        simp only [Option.map_some', Option.some.injEq] at h
        subst h
        obtain ⟨hlt, hcnt, hprev⟩ := ih k hf
        refine ⟨Nat.succ_lt_succ hlt, by simpa [List.getD_cons_succ] using hcnt, ?_⟩
        intro j hj
        cases j with
        | zero =>
          simpa [List.getD_cons_zero] using Nat.lt_of_not_le h2
        | succ m =>
          have := hprev m (by omega)
          simpa [List.getD_cons_succ] using this

theorem find_header_row_none (df : List (List PyVal)) :
    find_header_row df = none →
      ∀ j, j < df.length → rowMatchCount (df.getD j []) < 2 := by
  induction df with
  | nil => intro _ j hj; simp at hj
  | cons r rs ih =>
    intro h j hj
    by_cases h2 : 2 ≤ rowMatchCount r
    · simp [find_header_row, h2] at h
    · simp only [find_header_row, if_neg h2] at h
      cases j with
      | zero => simpa [List.getD_cons_zero] using Nat.lt_of_not_le h2
      | succ m =>
        cases hf : find_header_row rs with
        | none =>
          have := ih hf m (by simpa using hj)
          simpa [List.getD_cons_succ] using this
        | some k => rw [hf] at h; simp at h

theorem map_columns_pairwise (cols : List String) (rows : List (List PyVal)) :
    (map_columns cols rows).Pairwise (fun a b => a.1 < b.1) := by
  unfold map_columns
  refine List.Pairwise.filterMap _ ?_ (List.pairwise_lt_range cols.length)
  intro a b hab x hx y hy
  rw [Option.mem_def] at hx hy
  obtain ⟨fx, _, hx2⟩ := Option.map_eq_some'.mp hx
  obtain ⟨fy, _, hy2⟩ := Option.map_eq_some'.mp hy
  rw [← hx2, ← hy2]
  exact hab

theorem any_eq_false_find?_none {p : (String × PyVal) → Bool} {d : PRecord}
    (h : d.any p = false) : d.find? p = none := by
  rw [List.find?_eq_none]
  intro x hx hpx
  have := List.any_eq_true.mpr ⟨x, hx, hpx⟩
  rw [h] at this
  exact Bool.false_ne_true this

theorem find?_map_upd (d : PRecord) (k : String) (v : PyVal) :
    (d.map (fun p => if p.1 == k then (k, v) else p)).find? (fun p => p.1 == k)
      = if d.any (fun p => p.1 == k) then some (k, v) else none := by
  induction d with
  | nil => rfl
  | cons p d ih =>
    cases hp : (p.1 == k) with
    | true =>
      rw [List.map_cons, if_pos hp, List.find?_cons_of_pos _ (by simp),
        List.any_cons, if_pos (by rw [hp]; simp)]
    | false =>
      rw [List.map_cons, if_neg (by simp [hp]),
        List.find?_cons_of_neg _ (by simp [hp]), ih, List.any_cons]
      by_cases ha : d.any (fun p => p.1 == k) = true
      · rw [if_pos ha, if_pos (by rw [hp, ha]; rfl)]
      · rw [if_neg ha, if_neg (by rw [hp]; simpa using ha)]

theorem find?_map_upd_ne (d : PRecord) {k k' : String} (h : k' ≠ k) (v : PyVal) :
    (d.map (fun p => if p.1 == k then (k, v) else p)).find? (fun p => p.1 == k')
      = d.find? (fun p => p.1 == k') := by
  induction d with
  | nil => rfl
  | cons p d ih =>
    have h1 : ((k : String) == k') = false := by
      rw [beq_eq_false_iff_ne]
      exact fun he => h he.symm
    cases hp : (p.1 == k) with
    | true =>
      have hpk : p.1 = k := by simpa using hp
      have h2 : (p.1 == k') = false := by rw [hpk]; exact h1
      rw [List.map_cons, if_pos hp, List.find?_cons_of_neg _ (by simp [h1]),
        List.find?_cons_of_neg _ (by simp [h2])]
      exact ih
    | false =>
      rw [List.map_cons, if_neg (by simp [hp])]
      cases hq : (p.1 == k') with
      | true =>
        rw [List.find?_cons_of_pos _ (by simp [hq]),
          List.find?_cons_of_pos _ (by simp [hq])]
      | false =>
        rw [List.find?_cons_of_neg _ (by simp [hq]),
          List.find?_cons_of_neg _ (by simp [hq])]
        exact ih

theorem dictGet_dictSet_self (d : PRecord) (k : String) (v : PyVal) :
    dictGet (dictSet d k v) k = some v := by
  unfold dictGet dictSet
  by_cases ha : d.any (fun p => p.1 == k) = true
  · rw [if_pos ha, find?_map_upd, if_pos ha]
    rfl
  · rw [if_neg ha, List.find?_append,
      any_eq_false_find?_none (Bool.eq_false_iff.mpr ha)]
    simp [List.find?]

theorem dictGet_dictSet_ne (d : PRecord) {k k' : String} (h : k' ≠ k) (v : PyVal) :
    dictGet (dictSet d k v) k' = dictGet d k' := by
  unfold dictGet dictSet
  by_cases ha : d.any (fun p => p.1 == k) = true
  · rw [if_pos ha, find?_map_upd_ne _ h]
  · rw [if_neg ha, List.find?_append]
    have hk : ((k : String) == k') = false := by
      rw [beq_eq_false_iff_ne]
      exact fun he => h he.symm
    cases hf : d.find? (fun p => p.1 == k') with
    | none => simp [List.find?, hk]
    | some x => simp [hf]

theorem cleanField_get_ne (d : PRecord) (k : String) (f : PyVal → PyVal)
    {q : String} (h : q ≠ k) :
    dictGet (cleanField d k f) q = dictGet d q := by
  unfold cleanField
  cases hk : dictGet d k with
  | some v => simp only [hk]; rw [dictGet_dictSet_ne _ h]
  | none => simp only [hk]

theorem cleanField_get_self (d : PRecord) (k : String) (f : PyVal → PyVal) :
    dictGet (cleanField d k f) k = (dictGet d k).map f := by
  unfold cleanField
  cases hk : dictGet d k with
  | some v => simp only [hk]; rw [dictGet_dictSet_self]; rfl
  | none => simp only [hk]; rfl

theorem cleanNumeric_get_other (d : PRecord) (k : String) (h1 : k ≠ "luas")
    (h2 : k ≠ "nilai_harga") (h3 : k ≠ "tahun") :
    dictGet (cleanNumeric d) k = dictGet d k := by
  unfold cleanNumeric
  rw [cleanField_get_ne _ _ _ h3, cleanField_get_ne _ _ _ h2,
    cleanField_get_ne _ _ _ h1]

theorem cleanNumeric_get_luas (d : PRecord) :
    dictGet (cleanNumeric d) "luas"
      = (dictGet d "luas").map (fun v => encOptQ (clean_luas_value v)) := by
  unfold cleanNumeric
  rw [cleanField_get_ne _ _ _ (show "luas" ≠ "tahun" by decide),
    cleanField_get_ne _ _ _ (show "luas" ≠ "nilai_harga" by decide),
    cleanField_get_self]

theorem cleanNumeric_get_nilai (d : PRecord) :
    dictGet (cleanNumeric d) "nilai_harga"
      = (dictGet d "nilai_harga").map (fun v => encOptQ (clean_nilai_value v)) := by
  unfold cleanNumeric
  rw [cleanField_get_ne _ _ _ (show "nilai_harga" ≠ "tahun" by decide),
    cleanField_get_self, cleanField_get_ne _ _ _ (show "nilai_harga" ≠ "luas" by decide)]

theorem cleanNumeric_get_tahun (d : PRecord) :
    dictGet (cleanNumeric d) "tahun"
      = (dictGet d "tahun").map (fun v => encOptZ (clean_tahun_value v)) := by
  unfold cleanNumeric
  rw [cleanField_get_self, cleanField_get_ne _ _ _ (show "tahun" ≠ "nilai_harga" by decide),
    cleanField_get_ne _ _ _ (show "tahun" ≠ "luas" by decide)]

theorem trimOne_get_ne (d : PRecord) {f k : String} (h : k ≠ f) :
    dictGet (trimOne d f) k = dictGet d k := by
  unfold trimOne
  cases hf : dictGet d f with
  | some v =>
    simp only [hf]
    by_cases hn : v = PyVal.null
    · rw [if_pos hn]
    · rw [if_neg hn, dictGet_dictSet_ne _ h]
  | none => simp only [hf]

theorem trimFields_get_notmem (fs : List String) (d : PRecord) (k : String)
    (h : ¬ k ∈ fs) :
    dictGet (trimFields fs d) k = dictGet d k := by
  induction fs generalizing d with
  | nil => rfl
  | cons f fs ih =>
    show dictGet (trimFields fs (trimOne d f)) k = dictGet d k
    rw [ih _ (fun hm => h (List.mem_cons_of_mem _ hm)),
      trimOne_get_ne _ (fun he => h (by rw [he]; exact List.mem_cons_self _ _))]

theorem trimOne_get_self (d : PRecord) (f : String) (v : PyVal)
    (hv : dictGet d f = some v) (hnull : v ≠ PyVal.null) :
    dictGet (trimOne d f) f
      = some (PyVal.str (String.mk (stripL (pyStrL v)))) := by
  unfold trimOne
  simp only [hv]
  rw [if_neg hnull, dictGet_dictSet_self]

theorem trimFields_nama (d : PRecord) :
    dictGet (trimFields TRIM_FIELDS d) "nama_asset"
      = dictGet (trimOne d "nama_asset") "nama_asset" := by
  have h : trimFields TRIM_FIELDS d
      = trimFields ["kecamatan", "satuan_kerja", "status_tanah", "catatan", "k3",
          "pemetaan", "tanah_bangunan", "kode_aset"] (trimOne d "nama_asset") := rfl
  rw [h, trimFields_get_notmem _ _ _ (by decide)]

theorem finishRecord_get_nama (d : PRecord) (v : PyVal)
    (hv : dictGet d "nama_asset" = some v) (hnull : v ≠ PyVal.null) :
    dictGet (finishRecord d) "nama_asset"
      = some (PyVal.str (String.mk (stripL (pyStrL v)))) := by
  simp only [finishRecord]
  rw [trimFields_nama]
  have hd2 : dictGet (dictSet (cleanNumeric d) "status_combined"
      (PyVal.str (combine_status_fields (cleanNumeric d)))) "nama_asset" = some v := by
    rw [dictGet_dictSet_ne _ (by decide),
      cleanNumeric_get_other _ _ (by decide) (by decide) (by decide), hv]
  rw [trimOne_get_self _ _ _ hd2 hnull]

theorem finishRecord_get_luas (d : PRecord) :
    dictGet (finishRecord d) "luas"
      = (dictGet d "luas").map (fun v => encOptQ (clean_luas_value v)) := by
  simp only [finishRecord]
  rw [trimFields_get_notmem _ _ _ (by decide), dictGet_dictSet_ne _ (by decide),
    cleanNumeric_get_luas]

theorem finishRecord_get_nilai (d : PRecord) :
    dictGet (finishRecord d) "nilai_harga"
      = (dictGet d "nilai_harga").map (fun v => encOptQ (clean_nilai_value v)) := by
  simp only [finishRecord]
  rw [trimFields_get_notmem _ _ _ (by decide), dictGet_dictSet_ne _ (by decide),
    cleanNumeric_get_nilai]

theorem finishRecord_get_tahun (d : PRecord) :
    dictGet (finishRecord d) "tahun"
      = (dictGet d "tahun").map (fun v => encOptZ (clean_tahun_value v)) := by
  simp only [finishRecord]
  rw [trimFields_get_notmem _ _ _ (by decide), dictGet_dictSet_ne _ (by decide),
    cleanNumeric_get_tahun]

theorem finishRecord_get_other (d : PRecord) (k : String)
    (hTF : ¬ k ∈ TRIM_FIELDS) (hsc : k ≠ "status_combined")
    (h1 : k ≠ "luas") (h2 : k ≠ "nilai_harga") (h3 : k ≠ "tahun") :
    dictGet (finishRecord d) k = dictGet d k := by
  simp only [finishRecord]
  rw [trimFields_get_notmem _ _ _ hTF, dictGet_dictSet_ne _ hsc,
    cleanNumeric_get_other _ _ h1 h2 h3]

theorem processRow_nama (cm : List (Nat × String)) (row : List PyVal)
    (rec : PRecord) (h : processRow cm row = some rec) :
    ∃ s : String, dictGet rec "nama_asset" = some (PyVal.str s) ∧ s ≠ "" := by
  unfold processRow at h
  cases hr : recordAfterNama cm row with
  | none => rw [hr] at h; exact absurd h (by simp)
  | some d =>
    rw [hr] at h
    simp only [Option.map_some', Option.some.injEq] at h
    subst h
    simp only [recordAfterNama] at hr
    by_cases hb : namaBlank (kecCleaned (buildRecord cm row)).1 = true
    · rw [if_pos hb] at hr
      by_cases hk : truthy (kecCleaned (buildRecord cm row)).2 = true
      · rw [if_pos hk] at hr
        simp only [Option.some.injEq] at hr
        rw [← hr]
        refine ⟨"(Tanpa Nama)", ?_, by decide⟩
        have hget : dictGet (dictSet (kecCleaned (buildRecord cm row)).1
            "nama_asset" (PyVal.str "(Tanpa Nama)")) "nama_asset"
            = some (PyVal.str "(Tanpa Nama)") := dictGet_dictSet_self _ _ _
        rw [finishRecord_get_nama _ _ hget (by simp)]
        decide
      · rw [if_neg hk] at hr
        exact absurd hr (by simp)
    · rw [if_neg hb] at hr
      simp only [Option.some.injEq] at hr
      rw [← hr]
      simp only [namaBlank] at hb
      cases hv : dictGet (kecCleaned (buildRecord cm row)).1 "nama_asset" with
      | none => rw [hv] at hb; exact absurd rfl hb
      | some v =>
        rw [hv] at hb
        have hb2 : (!(truthy v) || (stripL (pyStrL v)).isEmpty) = false :=
          Bool.eq_false_iff.mpr hb
        have htr : truthy v = true := by
          cases ht : truthy v with
          | true => rfl
          | false => rw [ht] at hb2; simp at hb2
        have hse : (stripL (pyStrL v)).isEmpty = false := by
          cases hs : (stripL (pyStrL v)).isEmpty with
          | false => rfl
          | true => rw [hs] at hb2; simp at hb2
        have hnn : v ≠ PyVal.null := by
          intro he
          rw [he] at htr
          exact absurd htr (by decide)
        refine ⟨String.mk (stripL (pyStrL v)), finishRecord_get_nama _ _ hv hnn, ?_⟩
        intro he
        have hdata : stripL (pyStrL v) = [] := by
          have := congrArg String.data he
          simpa using this
        rw [hdata] at hse
        exact absurd hse (by decide)

theorem processRows_cons_noise (cm : List (Nat × String)) (r : List PyVal)
    (rs : List (List PyVal)) (h : is_data_row r = false) :
    processRows cm (r :: rs)
      = ((processRows cm rs).1, (processRows cm rs).2 + 1) := by
  simp only [processRows, h, Bool.not_false, if_true]

theorem processRows_cons_skip (cm : List (Nat × String)) (r : List PyVal)
    (rs : List (List PyVal)) (h : is_data_row r = true)
    (hp : processRow cm r = none) :
    processRows cm (r :: rs)
      = ((processRows cm rs).1, (processRows cm rs).2 + 1) := by
  simp only [processRows, h, Bool.not_true, Bool.false_eq_true, if_false, hp]

theorem processRows_cons_accept (cm : List (Nat × String)) (r : List PyVal)
    (rs : List (List PyVal)) (rec : PRecord) (h : is_data_row r = true)
    (hp : processRow cm r = some rec) :
    processRows cm (r :: rs)
      = (rec :: (processRows cm rs).1, (processRows cm rs).2) := by
  simp only [processRows, h, Bool.not_true, Bool.false_eq_true, if_false, hp]

theorem processRows_mem (cm : List (Nat × String)) (rows : List (List PyVal))
    (rec : PRecord) (h : rec ∈ (processRows cm rows).1) :
    ∃ row, processRow cm row = some rec := by
  induction rows with
  | nil => simp [processRows] at h
  | cons r rs ih =>
    cases hd : is_data_row r with
    | false =>
      rw [processRows_cons_noise _ _ _ hd] at h
      exact ih h
    | true =>
      cases hp : processRow cm r with
      | none =>
        rw [processRows_cons_skip _ _ _ hd hp] at h
        exact ih h
      | some rec0 =>
        rw [processRows_cons_accept _ _ _ _ hd hp] at h
        rcases List.mem_cons.mp h with he | hm
        · exact ⟨r, by rw [hp, he]⟩
        · exact ih hm

theorem parse_mem_processRow (input : Except String (List (List PyVal)))
    (rec : PRecord) (h : rec ∈ (parse_excel_file input).1) :
    ∃ cm row, processRow cm row = some rec := by
  cases input with
  | error e => simp [parse_excel_file] at h
  | ok raw =>
    simp only [parse_excel_file] at h
    split at h
    · split at h
      · simp at h
      · obtain ⟨row, hrow⟩ := processRows_mem _ _ _ h
        exact ⟨_, row, hrow⟩
    · simp at h

theorem parse_errors_or_empty (input : Except String (List (List PyVal))) :
    (parse_excel_file input).2.errors = []
      ∨ ((parse_excel_file input).1 = []
          ∧ (parse_excel_file input).2.errors ≠ []) := by
  cases input with
  | error e => exact Or.inr ⟨rfl, by simp [parse_excel_file]⟩
  | ok raw =>
    simp only [parse_excel_file]
    split
    · split
      · exact Or.inr ⟨rfl, by simp⟩
      · exact Or.inl rfl
    · exact Or.inr ⟨rfl, by simp⟩

/-- Claim C1 counterexample: the claim states that the area normalizer sends
"1500 m2" to 1500.0.  The code strips every character that is not a digit,
decimal point or minus, so the digit inside "m2" survives and the result is
15002.0. -/
theorem clean_luas_m2_counterexample :
    clean_luas_value (PyVal.str "1500 m2") = some 15002
    ∧ clean_luas_value (PyVal.str "1500 m2") ≠ some 1500 := by
  decide

/-- Claim C1 (amended): the area normalizer returns unparseable on an empty or
absent cell; otherwise it stringifies and trims the value, keeps only the
substring before the first colon when a colon is present, strips every
character that is not a digit, decimal point, or minus sign, and parses the
remainder as a float (unparseable if nothing remains or parsing fails).  For
the examples: "6153:00:00" yields 6153.0, "1500 m2" yields 15002.0 (the digit
of the unit survives the strip), "" and absent yield unparseable, "abc"
yields unparseable. -/
theorem clean_luas_value_correct :
    (∀ v, clean_luas_value v = clean_luas_spec v)
    ∧ clean_luas_value PyVal.null = none
    ∧ clean_luas_value (PyVal.str "6153:00:00") = some 6153
    ∧ clean_luas_value (PyVal.str "1500 m2") = some 15002
    ∧ clean_luas_value (PyVal.str "") = none
    ∧ clean_luas_value (PyVal.str "abc") = none :=
  ⟨clean_luas_eq_spec, by decide, by decide, by decide, by decide, by decide⟩

/-- Claim C2 counterexample: the claim states that each canonical field is
reached through at most one mapped position (first match wins, later
positions left unmapped).  The mapper has no cross-position deduplication:
two columns labelled "Tahun" are both mapped onto the canonical field
"tahun". -/
theorem map_columns_duplicate_field :
    map_columns ["Tahun", "Tahun"] [] = [(0, "tahun"), (1, "tahun")]
    ∧ ((map_columns ["Tahun", "Tahun"] []).filter (fun p => p.2 == "tahun")).length
        = 2 := by
  decide

/-- Claim C2 (amended): the ColumnMapping assigns each raw column position to
at most one canonical field (its position keys are strictly increasing, hence
pairwise distinct); several positions may however map to the same canonical
field — no first-match-wins deduplication across positions takes place. -/
theorem map_columns_position_unique :
    ∀ (cols : List String) (rows : List (List PyVal)),
      (map_columns cols rows).Pairwise (fun a b => a.1 < b.1) :=
  map_columns_pairwise

/-- Claim C3 counterexample: the claim states the header locator matches the
marker phrases against the UPPERCASED concatenation of the row's non-empty
cell text.  The code never uppercases this row text: a mixed-case header row
is found although its uppercased text contains none of the markers, and an
all-lowercase row is not found although uppercasing both sides would match. -/
theorem find_header_row_not_uppercased :
    find_header_row [[PyVal.str "Jenis Barang", PyVal.str "Satuan Kerja"]] = some 0
    ∧ rowMatchCountUpper [PyVal.str "Jenis Barang", PyVal.str "Satuan Kerja"] = 0
    ∧ find_header_row
        [[PyVal.str "jenis barang", PyVal.str "satuan kerja", PyVal.str "kecamatan"]]
        = none
    ∧ 2 ≤ rowMatchCountUpperBoth
        [PyVal.str "jenis barang", PyVal.str "satuan kerja", PyVal.str "kecamatan"] := by
  decide

/-- Claim C3 (amended): the header locator returns the index of the first row
whose concatenation of non-empty cell text (as-is, matched case-sensitively)
contains at least 2 of the fixed marker phrases as substrings — ties broken
by scan order, never by best score; when no row reaches the threshold it
signals not-found and the orchestrator applies the documented fallback index
row 6. -/
theorem find_header_row_first_match :
    ∀ df : List (List PyVal),
      (∀ i, find_header_row df = some i →
        i < df.length ∧ 2 ≤ rowMatchCount (df.getD i [])
          ∧ ∀ j, j < i → rowMatchCount (df.getD j []) < 2)
      ∧ (find_header_row df = none →
          (∀ j, j < df.length → rowMatchCount (df.getD j []) < 2)
          ∧ effective_header_row df = 6) :=
  fun df =>
    ⟨find_header_row_some df,
     fun h => ⟨find_header_row_none df h, by simp [effective_header_row, h]⟩⟩

/-- Witness for the amended C3 theorem at concrete sheets: a banner row
followed by a real header row is located at index 1, and a sheet with no
header gets the fallback index 6. -/
theorem find_header_row_first_match_witness :
    2 ≤ rowMatchCount ([[PyVal.str "x"],
        [PyVal.str "Jenis Barang / Nama Barang", PyVal.str "Satuan Kerja",
         PyVal.str "q"]].getD 1 [])
    ∧ effective_header_row [[PyVal.str "x"]] = 6 :=
  ⟨((find_header_row_first_match [[PyVal.str "x"],
      [PyVal.str "Jenis Barang / Nama Barang", PyVal.str "Satuan Kerja",
       PyVal.str "q"]]).1 1 (by decide)).2.1,
   ((find_header_row_first_match [[PyVal.str "x"]]).2 (by decide)).2⟩

/-- Claim C4: the row classifier applies its rules in order — (1) reject when
fewer than 3 cells are non-empty after trimming; (2-3) accept unconditionally
when the first cell's trimmed uppercase value equals the sentinel token BEDA,
overriding all following rules; (4) reject when the uppercased row text
contains both LETAK and ALAMAT; (5) reject when it contains both PENGADAAN
and HAK; (6) reject when the first cell starts with a summary/total keyword;
(7) otherwise accept.  A sentinel-first-cell row with fewer than 3 non-empty
cells is still rejected by rule 1. -/
theorem is_data_row_rule_order :
    (∀ row, is_data_row row = is_data_row_spec row)
    ∧ is_data_row [PyVal.str "BEDA", PyVal.str "x"] = false
    ∧ is_data_row [PyVal.str "BEDA", PyVal.str "LETAK", PyVal.str "ALAMAT"] = true
    ∧ is_data_row [PyVal.str "Letak", PyVal.str "Alamat", PyVal.str "b"] = false
    ∧ is_data_row [PyVal.str "Pengadaan", PyVal.str "Hak", PyVal.str "b"] = false
    ∧ is_data_row [PyVal.str "JUMLAH TOTAL", PyVal.str "a", PyVal.str "b"] = false
    ∧ is_data_row [PyVal.str "Dinas X", PyVal.str "Kec Y", PyVal.str "Aset Z"] = true :=
  ⟨is_data_row_eq_spec, by decide, by decide, by decide, by decide, by decide,
   by decide⟩

/-- Claim C5: the currency normalizer returns unparseable on an empty or
absent cell; otherwise it strips currency-symbol characters, thousands
separators and whitespace, then strips remaining non-numeric characters
except decimal point and minus, and parses the remainder as a float or
returns unparseable — it never raises (it is a total function).  "Rp
1.250.000" yields 1250000.0 and "-" yields unparseable. -/
theorem clean_nilai_value_correct :
    (∀ v, clean_nilai_value v = clean_nilai_spec v)
    ∧ clean_nilai_value PyVal.null = none
    ∧ clean_nilai_value (PyVal.str "Rp 1.250.000") = some 1250000
    ∧ clean_nilai_value (PyVal.str "-") = none :=
  ⟨clean_nilai_eq_spec, by decide, by decide, by decide⟩

/-- Claim C6 counterexample: the claim states the year normalizer looks for
the first run of EXACTLY four digits.  The regex matches the first four
consecutive digits even inside a longer run: on "19999" — a single digit run
of length five, so no run of exactly four digits exists — the code still
returns 1999. -/
theorem clean_tahun_five_digit_run :
    clean_tahun_value (PyVal.str "19999") = some 1999
    ∧ clean_tahun_exact_run_spec (PyVal.str "19999") = none := by
  decide

/-- Claim C6 (amended): the year normalizer returns unparseable on an empty
or absent cell; a floating-point number is truncated to an integer with no
range check; any other value is stringified and scanned for the first four
consecutive digits (possibly inside a longer digit run), accepted only within
[1900, 2100].  "Tahun 1999" yields 1999, the float 2005.0 yields 2005, "31"
and "3099" yield unparseable. -/
theorem clean_tahun_value_correct :
    (∀ v, clean_tahun_value v = clean_tahun_amended_spec v)
    ∧ clean_tahun_value PyVal.null = none
    ∧ (∀ q : ℚ, clean_tahun_value (PyVal.num q) = some (ratTrunc q))
    ∧ clean_tahun_value (PyVal.str "Tahun 1999") = some 1999
    ∧ clean_tahun_value (PyVal.num 2005) = some 2005
    ∧ clean_tahun_value (PyVal.str "31") = none
    ∧ clean_tahun_value (PyVal.str "3099") = none :=
  ⟨clean_tahun_eq_amended, by decide, fun q => rfl, by decide, by decide,
   by decide, by decide⟩

/-- Claim C7: every ParsedRecord emitted by the pipeline has a non-empty
asset-name field; when the mapped asset-name value is blank the placeholder
"(Tanpa Nama)" is substituted if the district value is truthy, and otherwise
the row is not emitted and the skipped counter is incremented. -/
theorem parsed_records_nama_nonempty :
    (∀ (input : Except String (List (List PyVal))) (rec : PRecord),
        rec ∈ (parse_excel_file input).1 →
        ∃ s : String, dictGet rec "nama_asset" = some (PyVal.str s) ∧ s ≠ "")
    ∧ (∀ (cm : List (Nat × String)) (row : List PyVal),
        namaBlank (kecCleaned (buildRecord cm row)).1 = true →
        truthy (kecCleaned (buildRecord cm row)).2 = true →
        recordAfterNama cm row
          = some (dictSet (kecCleaned (buildRecord cm row)).1 "nama_asset"
              (PyVal.str "(Tanpa Nama)")))
    ∧ (∀ (cm : List (Nat × String)) (row : List PyVal),
        namaBlank (kecCleaned (buildRecord cm row)).1 = true →
        truthy (kecCleaned (buildRecord cm row)).2 = false →
        processRow cm row = none)
    ∧ (∀ (cm : List (Nat × String)) (row : List PyVal) (rs : List (List PyVal)),
        is_data_row row = true → processRow cm row = none →
        processRows cm (row :: rs)
          = ((processRows cm rs).1, (processRows cm rs).2 + 1)) := by
  refine ⟨?_, ?_, ?_, ?_⟩
  · intro input rec h
    obtain ⟨cm, row, hp⟩ := parse_mem_processRow input rec h
    exact processRow_nama cm row rec hp
  · intro cm row hb hk
    simp only [recordAfterNama, hb, if_true, hk]
  · intro cm row hb hk
    simp [processRow, recordAfterNama, hb, hk]
  · exact fun cm row rs h hp => processRows_cons_skip cm row rs h hp

/-- Witness for C7 at a concrete two-row sheet: the single emitted record
carries the non-empty asset name "Aset Z". -/
theorem parsed_records_nama_nonempty_witness :
    ∃ s : String,
      dictGet [("satuan_kerja", PyVal.str "Dinas X"),
        ("kecamatan", PyVal.str "Kec Y"), ("nama_asset", PyVal.str "Aset Z"),
        ("status_combined", PyVal.str "")] "nama_asset"
        = some (PyVal.str s) ∧ s ≠ "" :=
  parsed_records_nama_nonempty.1
    (Except.ok [[PyVal.str "Satuan Kerja", PyVal.str "KECAMATAN", PyVal.str "Penggunaan"],
      [PyVal.str "Dinas X", PyVal.str "Kec Y", PyVal.str "Aset Z"]])
    [("satuan_kerja", PyVal.str "Dinas X"), ("kecamatan", PyVal.str "Kec Y"),
     ("nama_asset", PyVal.str "Aset Z"), ("status_combined", PyVal.str "")]
    (by decide)

/-- Claim C8: the pipeline never raises past its boundary (it is a total
function of the read outcome); every call yields either a fully processed
record set with no errors, or an explicit empty record set together with a
human-readable error reason — never a partial result.  A read failure and an
unmappable sheet each produce the documented error entry with an empty record
set. -/
theorem parse_errors_imply_empty_records :
    (∀ input, (parse_excel_file input).2.errors = []
        ∨ ((parse_excel_file input).1 = []
            ∧ (parse_excel_file input).2.errors ≠ []))
    ∧ (∀ e, parse_excel_file (Except.error e)
        = ([], ⟨0, 0, 0, [], ["Error reading Excel file: " ++ e]⟩))
    ∧ parse_excel_file (Except.ok [[PyVal.str "XJenis", PyVal.str "BarangY",
        PyVal.str "XNama", PyVal.str "BarangW"]])
        = ([], ⟨1, 0, 0, ["Sheet A/0"], ["Could not map columns"]⟩)
    ∧ parse_excel_file (Except.ok [[PyVal.str "x"]])
        = ([], ⟨1, 0, 0, ["Sheet A/0"],
            ["Error reading Excel file: single positional indexer is out-of-bounds"]⟩) :=
  ⟨parse_errors_or_empty, fun e => rfl, by decide, by decide⟩

/-- Claim C9: for every classifier-accepted row that passes the asset-name
requirement, an unparseable value from a normalizer never rejects the row:
the record is emitted with the affected numeric field set to null, the other
fields are carried over unchanged (apart from the documented trimming, status
combination and numeric cleaning), and the skipped counter is not
incremented. -/
theorem unparseable_fields_kept :
    ∀ (cm : List (Nat × String)) (row : List PyVal) (d : PRecord),
      is_data_row row = true →
      recordAfterNama cm row = some d →
      processRow cm row = some (finishRecord d)
      ∧ dictGet (finishRecord d) "luas"
          = (dictGet d "luas").map (fun v => encOptQ (clean_luas_value v))
      ∧ dictGet (finishRecord d) "nilai_harga"
          = (dictGet d "nilai_harga").map (fun v => encOptQ (clean_nilai_value v))
      ∧ dictGet (finishRecord d) "tahun"
          = (dictGet d "tahun").map (fun v => encOptZ (clean_tahun_value v))
      ∧ (∀ rs, processRows cm (row :: rs)
          = (finishRecord d :: (processRows cm rs).1, (processRows cm rs).2))
      ∧ (∀ k, ¬ k ∈ TRIM_FIELDS → k ≠ "status_combined" → k ≠ "luas" →
          k ≠ "nilai_harga" → k ≠ "tahun" →
          dictGet (finishRecord d) k = dictGet d k) := by
  intro cm row d hrow hd
  have hp : processRow cm row = some (finishRecord d) := by
    simp [processRow, hd]
  exact ⟨hp, finishRecord_get_luas d, finishRecord_get_nilai d,
    finishRecord_get_tahun d,
    fun rs => processRows_cons_accept cm row rs _ hrow hp,
    fun k h1 h2 h3 h4 h5 => finishRecord_get_other d k h1 h2 h3 h4 h5⟩

/-- Witness for C9 at a concrete accepted row whose area value "abc" is
unparseable: the record is still emitted and its luas field is null. -/
theorem unparseable_fields_kept_witness :
    dictGet (finishRecord [("nama_asset", PyVal.str "Aset"),
        ("luas", PyVal.str "abc")]) "luas" = some PyVal.null
    ∧ processRow [(0, "nama_asset"), (1, "luas")]
        [PyVal.str "Aset", PyVal.str "abc", PyVal.str "x"]
        = some (finishRecord [("nama_asset", PyVal.str "Aset"),
            ("luas", PyVal.str "abc")]) := by
  have h := unparseable_fields_kept [(0, "nama_asset"), (1, "luas")]
    [PyVal.str "Aset", PyVal.str "abc", PyVal.str "x"]
    [("nama_asset", PyVal.str "Aset"), ("luas", PyVal.str "abc")]
    (by decide) (by decide)
  exact ⟨h.2.1.trans (by decide), h.1⟩

/-- Claim C10 counterexample: the claim states every present status value
whose trimmed uppercased text is non-empty and not a sentinel contributes to
the composite.  The code guards with Python truthiness, so the float 0.0 —
whose text "0.0" is non-empty and not a sentinel — contributes nothing. -/
theorem combine_status_zero_value :
    combine_status_fields [("k3", PyVal.num 0)] = ""
    ∧ combine_status_spec_claim [("k3", PyVal.num 0)] = "0.0" := by
  decide

/-- Claim C10 (amended): the status combiner concatenates (separated by
" | ") the trimmed, uppercased values of the five designated status fields in
fixed order, keeping only truthy raw values (the number zero and the empty
string contribute nothing) whose text is non-empty and not one of the
sentinel non-values NAN, NONE, "-", with exact duplicates removed preserving
first occurrence; absent fields contribute nothing and an all-empty input
yields the empty string, not an error. -/
theorem combine_status_fields_correct :
    (∀ row : PRecord, combine_status_fields row = combine_status_spec_amended row)
    ∧ combine_status_fields [("status_tanah", PyVal.str "TERMANFAATKAN"),
        ("catatan", PyVal.str "TERMANFAATKAN"), ("k3", PyVal.str "TKD")]
        = "TERMANFAATKAN | TKD"
    ∧ combine_status_fields [] = ""
    ∧ combine_status_fields [("status_tanah", PyVal.str ""),
        ("catatan", PyVal.str ""), ("k3", PyVal.str ""), ("pemetaan", PyVal.str ""),
        ("tanah_bangunan", PyVal.str "")] = "" :=
  ⟨combine_eq_amended, by decide, by decide, by decide⟩

end AsetFilter
